import Mathlib

/-!
Shallow embedding of the two scripts of this repository,
src/skills/gibram/index-docs.py and src/skills/gibram/mcp-server.py.
External collaborators (the embedding provider, the GibRAM indexing
engine, the filesystem) are modelled as explicit oracle parameters;
the control flow of the scripts themselves is translated directly
from the source.
-/

set_option autoImplicit false

/-- Python strings are modelled as lists of characters. -/
abbrev PyStr : Type := List Char

/-- MAX_CHARS = 6000 of class OllamaEmbedder (index-docs.py line 50). -/
def OllamaEmbedder.MAX_CHARS : Nat := 6000

/-- Models the comprehension element t[:self.MAX_CHARS] if t else t of
index-docs.py line 57: an empty (falsy) text passes through unchanged,
any other text is cut to its first MAX_CHARS characters. -/
def OllamaEmbedder.truncateText (t : PyStr) : PyStr :=
  if t = [] then t else t.take OllamaEmbedder.MAX_CHARS

/-- Models one iteration of the per-item fallback loop of index-docs.py
lines 66-72.  The provider call self.client.embeddings.create is the
oracle parameter create; on success the first returned embedding is
used (r.data[0].embedding); any exception, including an out-of-range
access on an empty response, yields the zero vector of length 768
declared at line 72 (the dimensionality of the nomic-embed-text model). -/
def OllamaEmbedder.embedSingle {ε : Type}
    (create : List PyStr → Except ε (List (List Float))) (text : PyStr) :
    List Float :=
  match create [text] with
  | Except.ok (v :: _) => v
  | Except.ok [] => List.replicate 768 (0.0 : Float)
  | Except.error _ => List.replicate 768 (0.0 : Float)

/-- Models index-docs.py lines 58-73 after the truncation of line 57: one
batch request over the truncated texts; on success its vectors are
returned in response order; on failure the error is re-raised when the
batch holds exactly one item, and otherwise every truncated text is
retried individually in order via embedSingle. -/
def OllamaEmbedder.embedTruncated {ε : Type}
    (create : List PyStr → Except ε (List (List Float)))
    (truncated : List PyStr) : Except ε (List (List Float)) :=
  match create truncated with
  | Except.ok resp => Except.ok resp
  | Except.error e =>
    if truncated.length = 1 then Except.error e
    else Except.ok (truncated.map (OllamaEmbedder.embedSingle create))

/-- OllamaEmbedder.embed of index-docs.py lines 56-73: truncate every text
(line 57), then run the batch-with-fallback protocol over the truncated
texts. -/
def OllamaEmbedder.embed {ε : Type}
    (create : List PyStr → Except ε (List (List Float)))
    (texts : List PyStr) : Except ε (List (List Float)) :=
  OllamaEmbedder.embedTruncated create (texts.map OllamaEmbedder.truncateText)

lemma forall2_map_self {α β : Type} (r : α → β → Prop) (f : α → β)
    (h : ∀ a, r a (f a)) : ∀ l : List α, List.Forall₂ r l (l.map f)
  | [] => List.Forall₂.nil
  | a :: as => List.Forall₂.cons (h a) (forall2_map_self r f h as)

/-- C1: if the batch request for more than one text fails, embed retries
every truncated text individually in the original order, substitutes the
768-dimensional zero vector (the dimensionality of the nomic-embed-text
model, declared at index-docs.py line 72) for each individually failing
text, and returns normally with one vector per input text. -/
theorem embed_batch_fallback {ε : Type}
    (create : List PyStr → Except ε (List (List Float)))
    (texts : List PyStr) (e : ε)
    (h1 : 1 < texts.length)
    (h2 : create (texts.map OllamaEmbedder.truncateText) = Except.error e) :
    OllamaEmbedder.embed create texts
      = Except.ok
          ((texts.map OllamaEmbedder.truncateText).map (OllamaEmbedder.embedSingle create))
    ∧ ((texts.map OllamaEmbedder.truncateText).map (OllamaEmbedder.embedSingle create)).length
        = texts.length
    ∧ ∀ (t : PyStr) (e2 : ε), create [t] = Except.error e2 →
        OllamaEmbedder.embedSingle create t = List.replicate 768 (0.0 : Float) := by
  refine ⟨?_, by simp, ?_⟩
  · unfold OllamaEmbedder.embed OllamaEmbedder.embedTruncated
    rw [h2]
    have hne : ¬ (texts.map OllamaEmbedder.truncateText).length = 1 := by
      rw [List.length_map]; omega
    dsimp only
    rw [if_neg hne]
  · intro t e2 h3
    unfold OllamaEmbedder.embedSingle
    rw [h3]

/-- Oracle used by the witness of embed_batch_fallback: the batch request
fails, the single retry of the second text fails, every other single
retry succeeds. -/
def exFailCreate (req : List PyStr) : Except Nat (List (List Float)) :=
  if 2 ≤ req.length then Except.error 7
  else if req = [['b']] then Except.error 8
  else Except.ok (req.map (fun _ => [(1.0 : Float)]))

/-- Witness for embed_batch_fallback at a concrete two-text batch whose
batch request fails and whose second single-item retry also fails. -/
theorem embed_batch_fallback_witness :
    1 < ([['a'], ['b']] : List PyStr).length
    ∧ OllamaEmbedder.embed exFailCreate [['a'], ['b']]
        = Except.ok [[(1.0 : Float)], List.replicate 768 (0.0 : Float)]
    ∧ OllamaEmbedder.embedSingle exFailCreate ['b'] = List.replicate 768 (0.0 : Float) := by
  have h := embed_batch_fallback exFailCreate [['a'], ['b']] 7 (by decide) (by rfl)
  refine ⟨by decide, ?_, h.2.2 ['b'] 8 (by rfl)⟩
  rw [h.1]
  exact rfl

/-- C2: whenever embed returns (batch-success path or per-item fallback
path) under a provider that, on success, returns exactly one vector per
requested text in request order, the output has the length of the input
and the vector at every position is either the provider embedding of the
truncated text at that position or the zero-vector placeholder. -/
theorem embed_length_order {ε : Type}
    (create : List PyStr → Except ε (List (List Float)))
    (E : PyStr → List Float)
    (hc : ∀ req out, create req = Except.ok out → out = req.map E)
    (texts : List PyStr) (out : List (List Float))
    (h : OllamaEmbedder.embed create texts = Except.ok out) :
    out.length = texts.length
    ∧ List.Forall₂
        (fun t v => v = E (OllamaEmbedder.truncateText t)
          ∨ v = List.replicate 768 (0.0 : Float))
        texts out := by
  unfold OllamaEmbedder.embed OllamaEmbedder.embedTruncated at h
  cases h3 : create (texts.map OllamaEmbedder.truncateText) with
  | ok resp =>
    rw [h3] at h
    simp only [Except.ok.injEq] at h
    subst h
    have hr := hc _ resp h3
    subst hr
    rw [List.map_map]
    constructor
    · simp
    · exact forall2_map_self _ (E ∘ OllamaEmbedder.truncateText)
        (fun a => Or.inl rfl) texts
  | error e =>
    rw [h3] at h
    dsimp only at h
    by_cases hl : (texts.map OllamaEmbedder.truncateText).length = 1
    · rw [if_pos hl] at h
      exact absurd h (by simp)
    · rw [if_neg hl] at h
      simp only [Except.ok.injEq] at h
      subst h
      rw [List.map_map]
      constructor
      · simp
      · refine forall2_map_self _
          (OllamaEmbedder.embedSingle create ∘ OllamaEmbedder.truncateText) ?_ texts
        intro a
        show OllamaEmbedder.embedSingle create (OllamaEmbedder.truncateText a)
              = E (OllamaEmbedder.truncateText a)
          ∨ OllamaEmbedder.embedSingle create (OllamaEmbedder.truncateText a)
              = List.replicate 768 (0.0 : Float)
        unfold OllamaEmbedder.embedSingle
        cases h4 : create [OllamaEmbedder.truncateText a] with
        | ok resp2 =>
          have := hc _ resp2 h4
          subst this
          exact Or.inl rfl
        | error e2 =>
          exact Or.inr rfl

/-- Oracle used by the witness of embed_length_order: every request
succeeds and returns the constant vector for each requested text. -/
def exOkCreate (req : List PyStr) : Except Nat (List (List Float)) :=
  Except.ok (req.map (fun _ => [(1.0 : Float)]))

/-- Witness for embed_length_order at a concrete two-text input under the
always-succeeding oracle. -/
theorem embed_length_order_witness :
    OllamaEmbedder.embed exOkCreate [['a'], ['b']]
      = Except.ok [[(1.0 : Float)], [(1.0 : Float)]]
    ∧ ([[(1.0 : Float)], [(1.0 : Float)]] : List (List Float)).length
        = ([['a'], ['b']] : List PyStr).length := by
  have hc : ∀ req out, exOkCreate req = Except.ok out →
      out = req.map (fun _ => [(1.0 : Float)]) := by
    intro req out h
    exact (Except.ok.inj h).symm
  have h := embed_length_order exOkCreate (fun _ => [(1.0 : Float)]) hc
      [['a'], ['b']] [[(1.0 : Float)], [(1.0 : Float)]] (by rfl)
  exact ⟨by rfl, h.1⟩

/-- C6: embed delivers exactly the truncated texts to the provider on both
paths (the batch request and the per-item fallback requests range over
texts.map truncateText), and truncateText cuts a text longer than
MAX_CHARS to exactly MAX_CHARS characters, leaves a text of at most
MAX_CHARS characters unchanged, and leaves the empty text unchanged. -/
theorem embed_truncation {ε : Type}
    (create : List PyStr → Except ε (List (List Float)))
    (texts : List PyStr) (t : PyStr) :
    OllamaEmbedder.embed create texts
      = OllamaEmbedder.embedTruncated create (texts.map OllamaEmbedder.truncateText)
    ∧ (t.length ≤ OllamaEmbedder.MAX_CHARS → OllamaEmbedder.truncateText t = t)
    ∧ (OllamaEmbedder.MAX_CHARS < t.length →
        (OllamaEmbedder.truncateText t).length = OllamaEmbedder.MAX_CHARS)
    ∧ (t = [] → OllamaEmbedder.truncateText t = t) := by
  refine ⟨rfl, ?_, ?_, ?_⟩
  · intro hle
    unfold OllamaEmbedder.truncateText
    by_cases h0 : t = []
    · rw [if_pos h0]
    · rw [if_neg h0]
      exact List.take_of_length_le hle
  · intro hgt
    have h0 : ¬ t = [] := by
      intro h
      subst h
      simp at hgt
    unfold OllamaEmbedder.truncateText
    rw [if_neg h0, List.length_take]
    omega
  · intro h0
    unfold OllamaEmbedder.truncateText
    rw [if_pos h0]

/-- Oracle used by the witness of embed_truncation. -/
def exAnyCreate : List PyStr → Except Unit (List (List Float)) :=
  fun _ => Except.error ()

/-- Witness for embed_truncation at a short text, a text of 6001
characters, and the empty text. -/
theorem embed_truncation_witness :
    OllamaEmbedder.truncateText ['a'] = ['a']
    ∧ (OllamaEmbedder.truncateText (List.replicate 6001 'a')).length
        = OllamaEmbedder.MAX_CHARS
    ∧ OllamaEmbedder.truncateText ([] : PyStr) = ([] : PyStr) := by
  refine ⟨(embed_truncation exAnyCreate [] ['a']).2.1 (by decide),
          (embed_truncation exAnyCreate [] (List.replicate 6001 'a')).2.2.1 ?_,
          (embed_truncation exAnyCreate [] ([] : PyStr)).2.2.2 rfl⟩
  rw [List.length_replicate]
  decide

/-- C7: a failing batch request over a single-text input is propagated to
the caller unchanged: embed re-raises exactly the batch error and runs no
fallback. -/
theorem embed_single_failure_propagates {ε : Type}
    (create : List PyStr → Except ε (List (List Float)))
    (texts : List PyStr) (e : ε)
    (h1 : texts.length = 1)
    (h2 : create (texts.map OllamaEmbedder.truncateText) = Except.error e) :
    OllamaEmbedder.embed create texts = Except.error e := by
  unfold OllamaEmbedder.embed OllamaEmbedder.embedTruncated
  rw [h2]
  dsimp only
  rw [if_pos (by rw [List.length_map]; exact h1)]

/-- Oracle used by the witness of embed_single_failure_propagates: every
request fails with error 5. -/
def exErrCreate : List PyStr → Except Nat (List (List Float)) :=
  fun _ => Except.error 5

/-- Witness for embed_single_failure_propagates at a concrete single-text
input under the always-failing oracle. -/
theorem embed_single_failure_propagates_witness :
    ([['a']] : List PyStr).length = 1
    ∧ OllamaEmbedder.embed exErrCreate [['a']] = Except.error 5 :=
  ⟨rfl, embed_single_failure_propagates exErrCreate [['a']] 5 rfl rfl⟩

/-- The statistics record returned by GibRAMIndexer.index_documents of the
external gibram library; only the two counter fields read by the scripts
are modelled (index-docs.py lines 152-153, mcp-server.py lines 117-118). -/
structure IndexStats where
  entities_extracted : Nat
  relationships_extracted : Nat
deriving DecidableEq

/-- The loop state of main of index-docs.py lines 136-157: the two running
totals, the current batch, and, as instrumentation, the ordered list of
batches that have been passed to indexer.index_documents so far. -/
structure PipeState where
  total_entities : Nat
  total_relationships : Nat
  batch : List String
  calls : List (List String)
deriving DecidableEq

/-- One iteration of the loop of index-docs.py lines 141-157 for a single
file.  The file parameter is Option.some of its content when
path.read_text succeeds and Option.none when it raises (the file is then
skipped, line 145).  isLast models i == len(md_files); the engine oracle
models indexer.index_documents. -/
def pipelineStep (engine : List String → IndexStats) (batch_size : Nat)
    (isLast : Bool) (s : PipeState) (file : Option String) : PipeState :=
  let batch : List String :=
    match file with
    | Option.some d => s.batch ++ [d]
    | Option.none => s.batch
  if batch_size ≤ batch.length ∨ isLast = true then
    if batch = [] then
      ⟨s.total_entities, s.total_relationships, batch, s.calls⟩
    else
      let stats := engine batch
      ⟨s.total_entities + stats.entities_extracted,
       s.total_relationships + stats.relationships_extracted,
       [], s.calls ++ [batch]⟩
  else
    ⟨s.total_entities, s.total_relationships, batch, s.calls⟩

/-- The loop of index-docs.py lines 141-157 over the remaining files; a
file is the last one exactly when no files remain after it. -/
def pipelineGo (engine : List String → IndexStats) (batch_size : Nat) :
    List (Option String) → PipeState → PipeState
  | [], s => s
  | f :: rest, s =>
    pipelineGo engine batch_size rest
      (pipelineStep engine batch_size rest.isEmpty s f)

/-- The whole batch pipeline of index-docs.py lines 136-157, started from
zero totals and an empty batch. -/
def runPipeline (engine : List String → IndexStats) (batch_size : Nat)
    (files : List (Option String)) : PipeState :=
  pipelineGo engine batch_size files ⟨0, 0, [], []⟩

/-- Specification-side chunking of a document list into pieces of size
max batch_size 1 (the last piece may be shorter). -/
def chunks (batch_size : Nat) : List String → List (List String)
  | [] => []
  | d :: rest =>
    (d :: rest).take (max batch_size 1)
      :: chunks batch_size (rest.drop (max batch_size 1 - 1))
termination_by l => l.length
decreasing_by
  simp only [List.length_drop, List.length_cons]
  omega

lemma chunks_cons_eq (batch_size : Nat) (d : String) (rest : List String) :
    chunks batch_size (d :: rest)
      = (d :: rest).take (max batch_size 1)
          :: chunks batch_size ((d :: rest).drop (max batch_size 1)) := by
  have h1 : 1 ≤ max batch_size 1 := Nat.le_max_right batch_size 1
  have hdrop : (d :: rest).drop (max batch_size 1)
      = rest.drop (max batch_size 1 - 1) := by
    have h : max batch_size 1 = (max batch_size 1 - 1) + 1 := by omega
    conv_lhs => rw [h]
    rw [List.drop_succ_cons]
  rw [hdrop]
  simp only [chunks]

lemma chunks_singleton (B : Nat) (l : List String) (hB : 1 ≤ B)
    (h1 : l ≠ []) (h2 : l.length ≤ B) : chunks B l = [l] := by
  match l, h1 with
  | d :: rest, _ =>
    rw [chunks_cons_eq]
    have hmax : max B 1 = B := Nat.max_eq_left hB
    rw [hmax]
    rw [List.take_of_length_le h2]
    rw [List.drop_eq_nil_of_le h2]
    simp only [chunks]

lemma chunks_append (B : Nat) (l m : List String) (hB : 1 ≤ B)
    (h : l.length = B) : chunks B (l ++ m) = l :: chunks B m := by
  match l with
  | [] =>
    rw [List.length_nil] at h
    omega
  | d :: rest =>
    rw [List.cons_append, chunks_cons_eq]
    have hmax : max B 1 = B := Nat.max_eq_left hB
    rw [hmax, ← List.cons_append]
    rw [List.take_left' h, List.drop_left' h]

lemma chunks_length (B : Nat) (hB : 1 ≤ B) :
    ∀ l : List String, (chunks B l).length = (l.length + B - 1) / B
  | [] => by
    simp only [chunks, List.length_nil, Nat.zero_add]
    exact (Nat.div_eq_of_lt (by omega)).symm
  | d :: rest => by
    rw [chunks_cons_eq]
    have hmax : max B 1 = B := Nat.max_eq_left hB
    rw [hmax]
    rw [List.length_cons]
    rw [chunks_length B hB ((d :: rest).drop B)]
    rw [List.length_drop, List.length_cons]
    rcases Nat.lt_or_ge rest.length (B - 1) with hlt | hge
    · have e1 : rest.length + 1 - B = 0 := by omega
      rw [e1, Nat.zero_add]
      rw [Nat.div_eq_of_lt (by omega : B - 1 < B)]
      have e2 : rest.length + 1 + B - 1 = rest.length + B := by omega
      rw [e2, Nat.add_div_right _ (by omega : 0 < B)]
      rw [Nat.div_eq_of_lt (by omega : rest.length < B)]
    · have e1 : rest.length + 1 - B + B - 1 = rest.length := by omega
      rw [e1]
      have e2 : rest.length + 1 + B - 1 = rest.length + B := by omega
      rw [e2, Nat.add_div_right _ (by omega : 0 < B)]
termination_by l => l.length
decreasing_by
  simp only [List.length_drop, List.length_cons]
  omega

lemma pipelineGo_nil (engine : List String → IndexStats) (B : Nat)
    (s : PipeState) : pipelineGo engine B [] s = s := rfl

lemma pipelineGo_cons (engine : List String → IndexStats) (B : Nat)
    (f : Option String) (rest : List (Option String)) (s : PipeState) :
    pipelineGo engine B (f :: rest) s
      = pipelineGo engine B rest (pipelineStep engine B rest.isEmpty s f) := rfl

lemma pipelineStep_none_noflush (engine : List String → IndexStats) (B : Nat)
    (s : PipeState) (h : ¬ B ≤ s.batch.length) :
    pipelineStep engine B false s Option.none
      = ⟨s.total_entities, s.total_relationships, s.batch, s.calls⟩ := by
  unfold pipelineStep
  dsimp only
  rw [if_neg (by simp [h])]

lemma pipelineStep_none_empty_last (engine : List String → IndexStats) (B : Nat)
    (s : PipeState) (hb : s.batch = []) :
    pipelineStep engine B true s Option.none
      = ⟨s.total_entities, s.total_relationships, s.batch, s.calls⟩ := by
  unfold pipelineStep
  dsimp only
  rw [if_pos (Or.inr rfl), if_pos hb]

lemma pipelineStep_none_flush (engine : List String → IndexStats) (B : Nat)
    (s : PipeState) (hb : ¬ s.batch = []) :
    pipelineStep engine B true s Option.none
      = ⟨s.total_entities + (engine s.batch).entities_extracted,
         s.total_relationships + (engine s.batch).relationships_extracted,
         [], s.calls ++ [s.batch]⟩ := by
  unfold pipelineStep
  dsimp only
  rw [if_pos (Or.inr rfl), if_neg hb]

lemma pipelineStep_some_noflush (engine : List String → IndexStats) (B : Nat)
    (s : PipeState) (d : String) (h : ¬ B ≤ s.batch.length + 1) :
    pipelineStep engine B false s (Option.some d)
      = ⟨s.total_entities, s.total_relationships, s.batch ++ [d], s.calls⟩ := by
  unfold pipelineStep
  dsimp only
  rw [if_neg (by simp [h])]

lemma pipelineStep_some_flush (engine : List String → IndexStats) (B : Nat)
    (isLast : Bool) (s : PipeState) (d : String)
    (h : B ≤ s.batch.length + 1 ∨ isLast = true) :
    pipelineStep engine B isLast s (Option.some d)
      = ⟨s.total_entities + (engine (s.batch ++ [d])).entities_extracted,
         s.total_relationships + (engine (s.batch ++ [d])).relationships_extracted,
         [], s.calls ++ [s.batch ++ [d]]⟩ := by
  unfold pipelineStep
  dsimp only
  rw [if_pos (by simpa using h), if_neg (by simp)]

lemma pipelineGo_spec (engine : List String → IndexStats) (B : Nat) (hB : 1 ≤ B) :
    ∀ (files : List (Option String)) (s : PipeState), files ≠ [] →
      s.batch.length < B →
      (pipelineGo engine B files s).calls
          = s.calls ++ chunks B (s.batch ++ files.filterMap id)
      ∧ (pipelineGo engine B files s).total_entities
          = s.total_entities
            + ((chunks B (s.batch ++ files.filterMap id)).map
                (fun b => (engine b).entities_extracted)).sum
      ∧ (pipelineGo engine B files s).total_relationships
          = s.total_relationships
            + ((chunks B (s.batch ++ files.filterMap id)).map
                (fun b => (engine b).relationships_extracted)).sum
      ∧ (pipelineGo engine B files s).batch = [] := by
  intro files
  induction files with
  | nil =>
    intro s h _
    exact absurd rfl h
  | cons f rest ih =>
    intro s _ hlen
    cases rest with
    | nil =>
      rw [pipelineGo_cons, pipelineGo_nil]
      simp only [List.isEmpty_nil]
      cases f with
      | none =>
        by_cases hb : s.batch = []
        · rw [pipelineStep_none_empty_last engine B s hb]
          refine ⟨?_, ?_, ?_, hb⟩ <;> simp [hb, List.filterMap_cons, chunks]
        · rw [pipelineStep_none_flush engine B s hb]
          rw [show s.batch ++ List.filterMap id ([Option.none]) = s.batch by simp]
          rw [chunks_singleton B s.batch hB hb (by omega)]
          simp
      | some d =>
        rw [pipelineStep_some_flush engine B true s d (Or.inr rfl)]
        rw [show s.batch ++ List.filterMap id ([Option.some d]) = s.batch ++ [d] by simp]
        rw [chunks_singleton B (s.batch ++ [d]) hB (by simp) (by simp; omega)]
        simp
    | cons r rs =>
      rw [pipelineGo_cons]
      simp only [List.isEmpty_cons]
      cases f with
      | none =>
        rw [pipelineStep_none_noflush engine B s (by omega)]
        have hne : (r :: rs : List (Option String)) ≠ [] := by simp
        obtain ⟨ih1, ih2, ih3, ih4⟩ :=
          ih ⟨s.total_entities, s.total_relationships, s.batch, s.calls⟩ hne
            (by simpa using hlen)
        simp only [List.filterMap_cons]
        exact ⟨by simpa using ih1, by simpa using ih2, by simpa using ih3, ih4⟩
      | some d =>
        have hne : (r :: rs : List (Option String)) ≠ [] := by simp
        by_cases hf : B ≤ s.batch.length + 1
        · have hBeq : (s.batch ++ [d]).length = B := by
            simp only [List.length_append, List.length_singleton]
            omega
          rw [pipelineStep_some_flush engine B false s d (Or.inl hf)]
          obtain ⟨ih1, ih2, ih3, ih4⟩ :=
            ih ⟨s.total_entities + (engine (s.batch ++ [d])).entities_extracted,
                s.total_relationships + (engine (s.batch ++ [d])).relationships_extracted,
                [], s.calls ++ [s.batch ++ [d]]⟩ hne (by simpa using hB)
          have hsplit : s.batch ++ List.filterMap id (Option.some d :: r :: rs)
              = (s.batch ++ [d]) ++ List.filterMap id (r :: rs) := by
            simp
          rw [hsplit, chunks_append B (s.batch ++ [d]) (List.filterMap id (r :: rs)) hB hBeq]
          refine ⟨?_, ?_, ?_, ih4⟩
          · rw [ih1]
            simp
          · rw [ih2]
            simp only [List.map_cons, List.sum_cons]
            simp
            omega
          · rw [ih3]
            simp only [List.map_cons, List.sum_cons]
            simp
            omega
        · rw [pipelineStep_some_noflush engine B s d hf]
          obtain ⟨ih1, ih2, ih3, ih4⟩ :=
            ih ⟨s.total_entities, s.total_relationships, s.batch ++ [d], s.calls⟩ hne
              (by simp only [List.length_append, List.length_singleton]; omega)
          have hsplit : s.batch ++ List.filterMap id (Option.some d :: r :: rs)
              = (s.batch ++ [d]) ++ List.filterMap id (r :: rs) := by
            simp
          rw [hsplit]
          exact ⟨by simpa using ih1, by simpa using ih2, by simpa using ih3, ih4⟩

lemma chunks_mem_aux (B : Nat) (hB : 1 ≤ B) :
    ∀ (l : List String), ∀ c ∈ chunks B l, c ≠ [] ∧ c.length ≤ B
  | [], c, hc => by
    rw [chunks] at hc
    exact absurd hc (List.not_mem_nil c)
  | d :: rest, c, hc => by
    rw [chunks_cons_eq] at hc
    have hmax : max B 1 = B := Nat.max_eq_left hB
    rw [hmax] at hc
    rcases List.mem_cons.mp hc with h | h
    · subst h
      constructor
      · have : 0 < ((d :: rest).take B).length := by
          rw [List.length_take, List.length_cons]
          omega
        intro hnil
        rw [hnil] at this
        exact absurd this (by simp)
      · rw [List.length_take]
        omega
    · exact chunks_mem_aux B hB ((d :: rest).drop B) c h
termination_by l => l.length
decreasing_by
  simp only [List.length_drop, List.length_cons]
  omega

/-- C3: for a corpus whose readable documents number K (unreadable files
are skipped and never enter a batch) and a positive configured batch size
B, the CLI pipeline of index-docs.py lines 136-157 calls
indexer.index_documents exactly ceil(K/B) = (K + B - 1) / B times, and the
reported totals are the sums of the per-call returned counts. -/
theorem pipeline_batches (engine : List String → IndexStats) (B : Nat)
    (files : List (Option String)) (hB : 1 ≤ B) :
    (runPipeline engine B files).calls.length
        = ((files.filterMap id).length + B - 1) / B
    ∧ (runPipeline engine B files).total_entities
        = ((runPipeline engine B files).calls.map
            (fun b => (engine b).entities_extracted)).sum
    ∧ (runPipeline engine B files).total_relationships
        = ((runPipeline engine B files).calls.map
            (fun b => (engine b).relationships_extracted)).sum := by
  cases files with
  | nil =>
    refine ⟨?_, by simp [runPipeline, pipelineGo_nil],
      by simp [runPipeline, pipelineGo_nil]⟩
    simp only [runPipeline, pipelineGo_nil, List.filterMap_nil, List.length_nil,
      Nat.zero_add]
    exact (Nat.div_eq_of_lt (by omega)).symm
  | cons f rest =>
    obtain ⟨h1, h2, h3, _⟩ :=
      pipelineGo_spec engine B hB (f :: rest) ⟨0, 0, [], []⟩ (by simp)
        (by simpa using hB)
    unfold runPipeline
    rw [h2, h1, h3]
    refine ⟨?_, by simp, by simp⟩
    dsimp only
    simp only [List.nil_append]
    exact chunks_length B hB _

/-- Engine oracle for the witness of pipeline_batches, returning the
per-call counts of the worked example in the specification. -/
def exEngine (b : List String) : IndexStats :=
  if b = ["a", "b"] then ⟨3, 1⟩
  else if b = ["c", "d"] then ⟨2, 0⟩
  else ⟨1, 1⟩

/-- The five readable documents of the worked example. -/
def exFiles : List (Option String) :=
  [Option.some ("a"), Option.some ("b"), Option.some ("c"),
   Option.some ("d"), Option.some ("e")]

/-- Witness for pipeline_batches at the worked example of the
specification: 5 files with batch size 2 give 3 calls of sizes 2, 2, 1,
and per-call returns (3,1), (2,0), (1,1) accumulate to 6 entities and 2
relationships. -/
theorem pipeline_batches_witness :
    (1 : Nat) ≤ 2
    ∧ (runPipeline exEngine 2 exFiles).calls.length
        = ((exFiles.filterMap id).length + 2 - 1) / 2
    ∧ (runPipeline exEngine 2 exFiles).calls = [["a", "b"], ["c", "d"], ["e"]]
    ∧ (runPipeline exEngine 2 exFiles).total_entities = 6
    ∧ (runPipeline exEngine 2 exFiles).total_relationships = 2 := by
  refine ⟨by decide, (pipeline_batches exEngine 2 exFiles (by decide)).1,
    by decide, by decide, by decide⟩

/-- C10: with a positive configured batch size, the CLI pipeline never
passes an empty batch to the engine and never one larger than the batch
size, whatever mixture of readable and unreadable files the corpus holds
(including a final partial batch made entirely of unreadable files). -/
theorem pipeline_calls_nonempty_bounded (engine : List String → IndexStats)
    (B : Nat) (files : List (Option String)) (hB : 1 ≤ B) :
    ∀ c ∈ (runPipeline engine B files).calls, c ≠ [] ∧ c.length ≤ B := by
  cases files with
  | nil =>
    intro c hc
    simp [runPipeline, pipelineGo_nil] at hc
  | cons f rest =>
    obtain ⟨h1, _, _, _⟩ :=
      pipelineGo_spec engine B hB (f :: rest) ⟨0, 0, [], []⟩ (by simp)
        (by simpa using hB)
    intro c hc
    unfold runPipeline at hc
    rw [h1] at hc
    simp only [List.nil_append, List.append_nil] at hc
    exact chunks_mem_aux B hB _ c (by simpa using hc)

/-- Engine oracle for the witness of pipeline_calls_nonempty_bounded. -/
def exEngine10 : List String → IndexStats :=
  fun _ => ⟨0, 0⟩

/-- Corpus for the witness of pipeline_calls_nonempty_bounded: readable
and unreadable files mixed, ending in an unreadable file. -/
def exFiles10 : List (Option String) :=
  [Option.some ("a"), Option.none, Option.some ("b"),
   Option.some ("c"), Option.none]

/-- Witness for pipeline_calls_nonempty_bounded on a concrete mixed
corpus with batch size 2. -/
theorem pipeline_calls_nonempty_bounded_witness :
    (1 : Nat) ≤ 2
    ∧ ∀ c ∈ (runPipeline exEngine10 2 exFiles10).calls, c ≠ [] ∧ c.length ≤ 2 :=
  ⟨by decide, pipeline_calls_nonempty_bounded exEngine10 2 exFiles10 (by decide)⟩

/-- Truthiness test applied to the OPENAI_API_KEY lookup at index-docs.py
lines 106-108: the credential is missing when the environment variable is
absent or holds the empty string (both are falsy in Python). -/
def apiKeyMissing : Option String → Bool
  | Option.none => true
  | Option.some s => s.isEmpty

/-- The observable outcomes of main of index-docs.py: the three early
exits and normal completion carrying the final pipeline state. -/
inductive MainResult where
  | errorDirNotFound : MainResult
  | okNoFiles : MainResult
  | errorMissingKey : MainResult
  | completed : PipeState → MainResult
deriving DecidableEq

/-- The process exit code of each outcome: sys.exit(1) at index-docs.py
lines 98 and 108, sys.exit(0) at line 103, and the implicit exit 0 on
normal return. -/
def MainResult.exitCode : MainResult → Nat
  | MainResult.errorDirNotFound => 1
  | MainResult.okNoFiles => 0
  | MainResult.errorMissingKey => 1
  | MainResult.completed _ => 0

/-- main of index-docs.py lines 76-162.  dirExists models
docs_dir.exists(), md_files the sorted rglob result with per-file
readability, openai and openai_embed the two backend flags, apiKey the
OPENAI_API_KEY environment lookup, and engine the constructed
the index_documents call of GibRAMIndexer (the only remote collaborator used
after the precondition checks). -/
def cliMain (dirExists : Bool) (md_files : List (Option String))
    (openai openai_embed : Bool) (apiKey : Option String)
    (batch_size : Nat) (engine : List String → IndexStats) : MainResult :=
  if dirExists = false then MainResult.errorDirNotFound
  else if md_files = [] then MainResult.okNoFiles
  else if (openai || openai_embed) && apiKeyMissing apiKey then
    MainResult.errorMissingKey
  else MainResult.completed (runPipeline engine batch_size md_files)

/-- C9: the CLI exits 1 on a missing directory and (when matching files
exist) on a missing required credential, exits 0 with the no-files
message when the directory holds no markdown files, exits 0 after normal
completion, and in both exit-1 cases the outcome does not depend on the
engine, so no engine call has been made. -/
theorem cli_exit_codes (md_files : List (Option String))
    (openai openai_embed : Bool) (apiKey : Option String)
    (B : Nat) (engine : List String → IndexStats) :
    (cliMain false md_files openai openai_embed apiKey B engine
        = MainResult.errorDirNotFound
      ∧ (cliMain false md_files openai openai_embed apiKey B engine).exitCode = 1
      ∧ ∀ engine2, cliMain false md_files openai openai_embed apiKey B engine
          = cliMain false md_files openai openai_embed apiKey B engine2)
    ∧ (md_files = [] →
        cliMain true md_files openai openai_embed apiKey B engine
            = MainResult.okNoFiles
        ∧ (cliMain true md_files openai openai_embed apiKey B engine).exitCode = 0)
    ∧ (md_files ≠ [] →
        ((openai || openai_embed) && apiKeyMissing apiKey) = true →
        cliMain true md_files openai openai_embed apiKey B engine
            = MainResult.errorMissingKey
        ∧ (cliMain true md_files openai openai_embed apiKey B engine).exitCode = 1
        ∧ ∀ engine2, cliMain true md_files openai openai_embed apiKey B engine
            = cliMain true md_files openai openai_embed apiKey B engine2)
    ∧ (md_files ≠ [] →
        ((openai || openai_embed) && apiKeyMissing apiKey) = false →
        cliMain true md_files openai openai_embed apiKey B engine
            = MainResult.completed (runPipeline engine B md_files)
        ∧ (cliMain true md_files openai openai_embed apiKey B engine).exitCode = 0) := by
  refine ⟨⟨by simp [cliMain], by simp [cliMain, MainResult.exitCode], ?_⟩, ?_, ?_, ?_⟩
  · intro engine2
    simp [cliMain]
  · intro h
    subst h
    exact ⟨by simp [cliMain], by simp [cliMain, MainResult.exitCode]⟩
  · intro h1 h2
    refine ⟨?_, ?_, ?_⟩ <;> simp [cliMain, h1, h2, MainResult.exitCode]
  · intro h1 h2
    constructor <;> simp [cliMain, h1, h2, MainResult.exitCode]

/-- Engine oracle for the witness of cli_exit_codes. -/
def exEngine9 : List String → IndexStats :=
  fun _ => ⟨1, 1⟩

/-- Witness for cli_exit_codes, exercising the missing-credential exit,
the empty-directory exit, and normal local-mode completion at concrete
inputs. -/
theorem cli_exit_codes_witness :
    (cliMain true [Option.some ("a")] true false Option.none 1 exEngine9).exitCode = 1
    ∧ cliMain true [] true false Option.none 1 exEngine9 = MainResult.okNoFiles
    ∧ cliMain true [Option.some ("a")] false false Option.none 1 exEngine9
        = MainResult.completed (runPipeline exEngine9 1 [Option.some ("a")]) := by
  refine ⟨((cli_exit_codes [Option.some ("a")] true false Option.none 1
      exEngine9).2.2.1 (by decide) (by decide)).2.1,
    ((cli_exit_codes [] true false Option.none 1 exEngine9).2.1 rfl).1,
    ((cli_exit_codes [Option.some ("a")] false false Option.none 1
      exEngine9).2.2.2 (by decide) (by decide)).1⟩

/-- The extractor/embedder configuration built by _indexer of
mcp-server.py lines 30-51: provider model name, credential and optional
base URL for each of the two clients. -/
structure ProviderConfig where
  extractor_model : String
  extractor_api_key : String
  extractor_base_url : Option String
  embedder_model : String
  embedder_api_key : String
  embedder_base_url : Option String
deriving DecidableEq

/-- OPENAI_API_KEY = os.environ.get("OPENAI_API_KEY", "") of
mcp-server.py line 27: an absent variable becomes the empty string. -/
def envApiKey (env : Option String) : String := env.getD ""

/-- _indexer of mcp-server.py lines 30-51, as the configuration it hands
to GibRAMIndexer.  The source unconditionally constructs the clients and
contains no credential check and no raise site, so the translation to
Except (which models raising a precondition error as Except.error) has no
error branch: every input yields Except.ok. -/
def mcpIndexer (use_openai : Bool) (openai_api_key : String)
    (extractor_model embedder_model ollama_base_url : String) :
    Except String ProviderConfig :=
  if use_openai then
    Except.ok ⟨"gpt-4o", openai_api_key, Option.none,
      "text-embedding-3-small", openai_api_key, Option.none⟩
  else
    Except.ok ⟨extractor_model, "ollama", Option.some ollama_base_url,
      embedder_model, "ollama", Option.some ollama_base_url⟩

/-- C4 counterexample: requesting the remote backend through the tool
facade (GIBRAM_BACKEND=openai) with no credential in the environment does
not fail fast — _indexer successfully builds the configuration, passing
the empty string as the credential of both clients. -/
theorem mcp_indexer_no_credential_check :
    mcpIndexer true (envApiKey Option.none) ("llama3.2") ("nomic-embed-text")
        ("http://localhost:11434/v1")
      = Except.ok ⟨"gpt-4o", "", Option.none,
          "text-embedding-3-small", "", Option.none⟩ := rfl

/-- C4 (amended): the CLI entry point fails fast — with matching files
present, a remote-usage request (either flag) with a missing credential
exits with the precondition error regardless of the engine, so before any
remote call, and the local-only backend never triggers the credential
exit; the indexer construction of the tool facade, however, performs no
credential check and always returns a configuration. -/
theorem credential_precondition (md_files : List (Option String))
    (openai openai_embed : Bool) (apiKey : Option String)
    (B : Nat) (engine : List String → IndexStats)
    (hne : md_files ≠ []) :
    ((openai || openai_embed) = true → apiKeyMissing apiKey = true →
      cliMain true md_files openai openai_embed apiKey B engine
          = MainResult.errorMissingKey
      ∧ ∀ engine2, cliMain true md_files openai openai_embed apiKey B engine
          = cliMain true md_files openai openai_embed apiKey B engine2)
    ∧ (∀ apiKey2, cliMain true md_files false false apiKey2 B engine
        ≠ MainResult.errorMissingKey)
    ∧ (∀ (use_openai : Bool) (envKey : Option String)
        (em bm burl : String), ∃ cfg,
        mcpIndexer use_openai (envApiKey envKey) em bm burl = Except.ok cfg) := by
  refine ⟨?_, ?_, ?_⟩
  · intro h1 h2
    constructor
    · simp [cliMain, hne, h1, h2]
    · intro engine2
      simp [cliMain, hne, h1, h2]
  · intro apiKey2
    by_cases hmf : md_files = []
    · simp [cliMain, hmf]
    · simp [cliMain, hmf]
  · intro use_openai envKey em bm burl
    cases use_openai with
    | true => exact ⟨_, rfl⟩
    | false => exact ⟨_, rfl⟩

/-- Witness for credential_precondition: hybrid mode with an empty-string
credential hits the precondition exit at a concrete input. -/
theorem credential_precondition_witness :
    cliMain true [Option.some ("a")] false true (Option.some "") 1 exEngine9
        = MainResult.errorMissingKey
    ∧ cliMain true [Option.some ("a")] false false Option.none 1 exEngine9
        ≠ MainResult.errorMissingKey :=
  ⟨((credential_precondition [Option.some ("a")] false true (Option.some "") 1
      exEngine9 (by decide)).1 (by decide) (by decide)).1,
   (credential_precondition [Option.some ("a")] false false Option.none 1
      exEngine9 (by decide)).2.1 Option.none⟩

/-- One lowercase hexadecimal digit. -/
def hexDigit (n : Nat) : Char :=
  if n < 10 then Char.ofNat (48 + n) else Char.ofNat (87 + n)

/-- The w lowest lowercase hexadecimal digits of n, most significant
first, as emitted by the fixed-width repr escapes of CPython. -/
def hexDigits : Nat → Nat → List Char
  | 0, _ => []
  | w + 1, n => hexDigits w (n / 16) ++ [hexDigit (n % 16)]

/-- The single-quote character, the preferred quote of Python repr. -/
def quoteChar : Char := '\x27'

/-- Quote selection of CPython repr for str: single quotes, unless the
string contains a single quote and no double quote, in which case double
quotes. -/
def pyReprQuote (s : String) : Char :=
  if s.data.contains quoteChar && !(s.data.contains '"') then '"' else quoteChar

/-- The characters CPython repr emits for one character of a string: the
chosen quote and the backslash get a backslash escape; newline, tab and
carriage return their two-character letter escapes; any other
non-printable character a hexadecimal escape (backslash-x, backslash-u
or backslash-U by code-point size); every other character stands for
itself.  The printable oracle stands for the Unicode printability table
of CPython; its ASCII fragment is asciiPrintable below. -/
def pyReprEscapeChar (printable : Char → Bool) (quote : Char) (c : Char) :
    List Char :=
  if c = quote ∨ c = '\\' then ['\\', c]
  else if c = Char.ofNat 10 then ['\\', 'n']
  else if c = Char.ofNat 9 then ['\\', 't']
  else if c = Char.ofNat 13 then ['\\', 'r']
  else if printable c = false then
    if c.toNat < 256 then '\\' :: 'x' :: hexDigits 2 c.toNat
    else if c.toNat < 65536 then '\\' :: 'u' :: hexDigits 4 c.toNat
    else '\\' :: 'U' :: hexDigits 8 c.toNat
  else [c]

/-- Python repr of a string value (the form taken by the query!r and
session_id!r conversions of mcp-server.py line 71): the chosen quote,
then the escape expansion of every character, then the chosen quote. -/
def pyRepr (printable : Char → Bool) (s : String) : String :=
  String.mk (pyReprQuote s
    :: s.data.flatMap (pyReprEscapeChar printable (pyReprQuote s))
    ++ [pyReprQuote s])

/-- The ASCII fragment of the printable-character predicate of CPython:
space through tilde are printable, control characters are not. -/
def asciiPrintable (c : Char) : Bool :=
  decide (32 ≤ c.toNat ∧ c.toNat ≤ 126)

/-- A character that repr reproduces verbatim: printable and none of
backslash, either quote kind, newline, tab, carriage return. -/
def reprPlain (printable : Char → Bool) (c : Char) : Bool :=
  !(c == quoteChar) && !(c == '"') && !(c == '\\') && !(c == Char.ofNat 10)
    && !(c == Char.ofNat 9) && !(c == Char.ofNat 13) && printable c

lemma flatMap_congr_id {α : Type} (f : α → List α) :
    ∀ l : List α, (∀ c ∈ l, f c = [c]) → l.flatMap f = l
  | [], _ => rfl
  | c :: cs, h => by
    rw [List.flatMap_cons, h c (List.mem_cons_self c cs),
      flatMap_congr_id f cs (fun x hx => h x (List.mem_cons_of_mem c hx))]
    rfl

lemma pyReprEscapeChar_plain (printable : Char → Bool) (c : Char)
    (h : reprPlain printable c = true) :
    pyReprEscapeChar printable quoteChar c = [c] := by
  unfold reprPlain at h
  simp only [Bool.and_eq_true, Bool.not_eq_true', beq_eq_false_iff_ne, ne_eq] at h
  obtain ⟨⟨⟨⟨⟨⟨h1, h2⟩, h3⟩, h4⟩, h5⟩, h6⟩, h7⟩ := h
  unfold pyReprEscapeChar
  rw [if_neg (fun hc => hc.elim h1 h3), if_neg h4, if_neg h5, if_neg h6,
    if_neg (by simp [h7])]

lemma pyRepr_plain (printable : Char → Bool) (s : String)
    (h : ∀ c ∈ s.data, reprPlain printable c = true) :
    pyRepr printable s = String.mk (quoteChar :: (s.data ++ [quoteChar])) := by
  have hq : pyReprQuote s = quoteChar := by
    have hmem : quoteChar ∉ s.data := by
      intro hm
      have h2 := h quoteChar hm
      simp [reprPlain] at h2
    have hcontains : s.data.contains quoteChar = false := by simpa using hmem
    unfold pyReprQuote
    rw [hcontains]
    rfl
  unfold pyRepr
  rw [hq]
  rw [flatMap_congr_id (pyReprEscapeChar printable quoteChar) s.data
    (fun c hc => pyReprEscapeChar_plain printable c (h c hc))]
  rfl

/-- The newline joining the lines of the formatted query answer
(mcp-server.py line 80). -/
def newlineChar : Char := Char.ofNat 10

/-- One entity of the ranked-retrieval result of indexer.query: title,
score and optional description, as read by mcp-server.py lines 74-78. -/
structure QueryEntity where
  title : String
  score : Float
  description : Option String

/-- The one or two lines appended for a numbered entity by mcp-server.py
lines 74-78.  formatScore is an oracle for the opaque numeric f-string
conversion score:.3f; the description line appears only when the
attribute is present and truthy. -/
def entityLines (formatScore : Float → String) (p : Nat × QueryEntity) :
    List String :=
  let first := toString p.1 ++ ". " ++ p.2.title ++ "  (score: "
    ++ formatScore p.2.score ++ ")"
  match p.2.description with
  | Option.some d => if d.isEmpty then [first] else [first, "   " ++ d]
  | Option.none => [first]

/-- query_docs of mcp-server.py lines 54-80, applied to the entity list
returned by the ranked-retrieval call: an empty result set yields the
literal no-results message built with the two repr conversions; otherwise
the header lines and the numbered entity lines are joined with
newlines. -/
def query_docs (printable : Char → Bool) (formatScore : Float → String)
    (entities : List QueryEntity) (query session_id : String) : String :=
  match entities with
  | [] =>
    "No results found for: " ++ pyRepr printable query ++ " in session "
      ++ pyRepr printable session_id
  | _ :: _ =>
    let header := ["Query: " ++ query, "Session: " ++ session_id, ""]
    let body := (entities.enumFrom 1).flatMap (entityLines formatScore)
    String.intercalate (String.singleton newlineChar) (header ++ body)

/-- Score-format oracle for the query_docs theorems. -/
def exFormatScore : Float → String := fun _ => ""

/-- C8 counterexample: for a query holding a newline, repr rewrites the
character into a backslash-n escape, so the no-results message does not
contain the original query text verbatim. -/
theorem query_docs_repr_not_verbatim :
    ¬ List.IsInfix (String.mk ['a', Char.ofNat 10, 'b']).data
        (query_docs asciiPrintable exFormatScore []
          (String.mk ['a', Char.ofNat 10, 'b']) ("s")).data := by
  decide

/-- C8 (amended): when the ranked-retrieval call yields no entities,
query_docs returns (it is a total function, so without raising) the
literal no-results message built from the repr of the query and of the
session identifier; the message contains the query text and the session
identifier verbatim whenever every one of their characters is reproduced
verbatim by repr (printable and not a quote, backslash, newline, tab or
carriage return) — repr escaping can otherwise rewrite them. -/
theorem query_docs_no_results (printable : Char → Bool)
    (formatScore : Float → String) (query session_id : String) :
    query_docs printable formatScore [] query session_id
      = "No results found for: " ++ pyRepr printable query ++ " in session "
          ++ pyRepr printable session_id
    ∧ ((∀ c ∈ query.data, reprPlain printable c = true) →
        ∃ a b, (query_docs printable formatScore [] query session_id).data
          = a ++ query.data ++ b)
    ∧ ((∀ c ∈ session_id.data, reprPlain printable c = true) →
        ∃ a b, (query_docs printable formatScore [] query session_id).data
          = a ++ session_id.data ++ b) := by
  refine ⟨rfl, ?_, ?_⟩
  · intro hq
    refine ⟨("No results found for: ").data ++ [quoteChar],
      [quoteChar] ++ (" in session ").data
        ++ (pyRepr printable session_id).data, ?_⟩
    show ("No results found for: " ++ pyRepr printable query ++ " in session "
        ++ pyRepr printable session_id).data = _
    rw [pyRepr_plain printable query hq]
    simp [String.data_append, List.append_assoc]
  · intro hs
    refine ⟨("No results found for: ").data ++ (pyRepr printable query).data
        ++ (" in session ").data ++ [quoteChar], [quoteChar], ?_⟩
    show ("No results found for: " ++ pyRepr printable query ++ " in session "
        ++ pyRepr printable session_id).data = _
    rw [pyRepr_plain printable session_id hs]
    simp [String.data_append, List.append_assoc]

/-- Witness for query_docs_no_results at concrete repr-plain query and
session strings under the ASCII printable table. -/
theorem query_docs_no_results_witness :
    (∀ c ∈ ("abc" : String).data, reprPlain asciiPrintable c = true)
    ∧ (∀ c ∈ ("s1" : String).data, reprPlain asciiPrintable c = true)
    ∧ (∃ a b, (query_docs asciiPrintable exFormatScore [] ("abc") ("s1")).data
        = a ++ ("abc" : String).data ++ b)
    ∧ (∃ a b, (query_docs asciiPrintable exFormatScore [] ("abc") ("s1")).data
        = a ++ ("s1" : String).data ++ b) := by
  have h := query_docs_no_results asciiPrintable exFormatScore ("abc") ("s1")
  exact ⟨by decide, by decide, h.2.1 (by decide), h.2.2 (by decide)⟩

/-- The observable outcome of index_directory of mcp-server.py: the two
early returns, or the indexed summary carrying the submitted documents,
the skip count and the stats of the engine call. -/
inductive IndexDirOutcome where
  | errDirNotFound : IndexDirOutcome
  | noFiles : IndexDirOutcome
  | indexed : List String → Nat → IndexStats → IndexDirOutcome
deriving DecidableEq

/-- index_directory of mcp-server.py lines 82-124, instrumented with the
ordered list of engine invocations it performs (second component).  The
readable documents are accumulated in order, unreadable ones only
counted; indexer.index_documents is then called exactly once, with the
whole corpus — the source has no batching loop. -/
def index_directory (dirExists : Bool) (md_files : List (Option String))
    (engine : List String → IndexStats) :
    IndexDirOutcome × List (List String) :=
  if dirExists = false then (IndexDirOutcome.errDirNotFound, [])
  else if md_files = [] then (IndexDirOutcome.noFiles, [])
  else
    let docs := md_files.filterMap id
    let skipped := (md_files.filter (fun f => f.isNone)).length
    (IndexDirOutcome.indexed docs skipped (engine docs), [docs])

/-- C5 counterexample: indexing a directory of 51 readable files through
the tool facade performs exactly one engine call carrying all 51
documents — larger than the default CLI batch bound of 50 and equal to
the whole corpus — so the corpus is not submitted in batches bounded by a
configured maximum batch size. -/
theorem index_directory_not_batched :
    (index_directory true (List.replicate 51 (Option.some ("x")))
        (fun _ => (⟨0, 0⟩ : IndexStats))).2
      = [List.replicate 51 ("x")]
    ∧ (List.replicate 51 ("x") : List String).length = 51 := by
  constructor
  · decide
  · decide

/-- C5 (amended): for every existing directory holding at least one
matching file, the tool facade submits the readable documents to the
engine in a single index_documents call containing the entire corpus in
order — no batching — and reports the stats of that call with the skip
count. -/
theorem index_directory_single_call (md_files : List (Option String))
    (engine : List String → IndexStats) (h : md_files ≠ []) :
    (index_directory true md_files engine).2 = [md_files.filterMap id]
    ∧ (index_directory true md_files engine).1
        = IndexDirOutcome.indexed (md_files.filterMap id)
            ((md_files.filter (fun f => f.isNone)).length)
            (engine (md_files.filterMap id)) := by
  constructor <;> simp [index_directory, h]

/-- Witness for index_directory_single_call at a concrete directory of
two readable and one unreadable file. -/
theorem index_directory_single_call_witness :
    ([Option.some ("a"), Option.none, Option.some ("b")] : List (Option String)) ≠ []
    ∧ (index_directory true [Option.some ("a"), Option.none, Option.some ("b")]
        exEngine10).2 = [[("a" : String), "b"]] := by
  refine ⟨by decide, ?_⟩
  rw [(index_directory_single_call
      [Option.some ("a"), Option.none, Option.some ("b")] exEngine10 (by decide)).1]
  decide
